import Mathlib

/-!
A shallow embedding of `src/steam_custom_url_checker.py` (the Steam custom
URL availability checker) and proofs about its behaviour.

Conventions of the embedding:
* Python strings are Lean `String`s; the per-character helpers work on
  `String.data` (a `List Char`).
* The network layer is modelled by the inductive `FetchResult`: a completed
  HTTP response (final post-redirect URL, status code, and a body that is
  `none` when decoding the body raised), a cancellation, or an ordinary
  exception carrying the name of the exception class.
* Float delays are modelled by rationals; the backoff constant 0.6 is the
  rational 3/5.
* Stateful file I/O (results.csv, Available.txt) is modelled by explicit
  state passing over the `Store` structure; console output is modelled by
  explicit fields of trace structures.
-/

namespace Steam

/-- The three classification statuses used by the checker. -/
inductive Status
  | available
  | taken
  | unknown
deriving DecidableEq, Repr

/-- The outcome triple returned by `_check_once` / `_check_with_retries`:
`(status, http_status, note)` where `http_status` is `None` for
exception outcomes. -/
structure Outcome where
  status : Status
  httpStatus : Option Nat
  note : String
deriving DecidableEq, Repr

/-- `listStartsWith needle hay` : `hay` begins with `needle`. -/
def listStartsWith : List Char → List Char → Bool
  | [], _ => true
  | _ :: _, [] => false
  | a :: as, b :: bs => a == b && listStartsWith as bs

/-- `containsSub needle hay` : `needle` occurs contiguously in `hay`.
Models the Python `needle in hay` test on strings. -/
def containsSub (needle : List Char) : List Char → Bool
  | [] => listStartsWith needle []
  | c :: rest => listStartsWith needle (c :: rest) || containsSub needle rest

/-- Python `needle in hay` on strings. -/
def strContains (hay needle : String) : Bool := containsSub needle.data hay.data

/-- Python `s.lower()` (ASCII-faithful). -/
def pyLower (s : String) : String := ⟨s.data.map Char.toLower⟩

/-- Python `s.strip()`: remove leading and trailing whitespace. -/
def pyStrip (s : String) : String :=
  ⟨((s.data.dropWhile Char.isWhitespace).reverse.dropWhile Char.isWhitespace).reverse⟩

/-- The character class `[a-z0-9]` of `ALLOWED_RE` (line 20) and of the
substitution `re.sub(r"[^a-z0-9]", "", n)` (line 176). -/
def isLowerAlnum (c : Char) : Bool :=
  (decide ('a' ≤ c) && decide (c ≤ 'z')) || (decide ('0' ≤ c) && decide (c ≤ '9'))

/-- `re.sub(r"[^a-z0-9]", "", n)` (line 176): drop every character outside
`[a-z0-9]`. -/
def keepAlnum (s : String) : String := ⟨s.data.filter isLowerAlnum⟩

/-- `ALLOWED_RE.match(n)` with `ALLOWED_RE = re.compile(r"^[a-z0-9]+$")`
(lines 20 and 177): nonempty and every character in `[a-z0-9]`. -/
def allowedMatches (s : String) : Bool := !s.data.isEmpty && s.data.all isLowerAlnum

/-- The per-candidate normalisation of lines 174 to 176 applied to one raw
string: lowercase, strip, then drop characters outside `[a-z0-9]`. -/
def sanitizeOne (n : String) : String := keepAlnum (pyStrip (pyLower n))

/-- The body markers of line 103: presence of any of them classifies the
page as a live profile. -/
def markers : List String := ["avatar", "profile_header", "steamcommunity.com", "steamid"]

/-- The possible results of the `session.get` interaction inside
`_check_once` (lines 86 to 110): a completed response with final URL,
status code and an optionally-decodable body; a cancellation
(`asyncio.CancelledError`); or an ordinary exception of a given class. -/
inductive FetchResult
  | success (finalUrl : String) (statusCode : Nat) (body : Option String)
  | cancelled
  | failure (kind : String)
deriving DecidableEq, Repr

/-- `SteamChecker._check_once` (lines 86 to 110). The `Except Unit`
layer models re-raising: `.error ()` is a propagated
`asyncio.CancelledError`; every other path returns a classified outcome. -/
def check_once (name : String) (r : FetchResult) : Except Unit Outcome :=
  match r with
  | .cancelled => .error ()
  | .failure kind => .ok ⟨.unknown, none, "exception:" ++ kind⟩
  | .success finalUrl statusCode body =>
    if strContains finalUrl "/profiles/" then
      .ok ⟨.taken, some statusCode, "redirect_to_profiles"⟩
    else
      match body with
      | none => .ok ⟨.unknown, some statusCode, "unicode_error"⟩
      | some b =>
        let low := pyLower b
        if strContains low "could not be found" && decide (2 < name.length) then
          .ok ⟨.available, some statusCode, "not_found_text"⟩
        else if markers.any (fun m => strContains low m) then
          .ok ⟨.taken, some statusCode, "profile_markers"⟩
        else
          .ok ⟨.taken, some statusCode, "fallback_taken"⟩

/-- The loop body of `SteamChecker._check_with_retries` (lines 112 to 122),
entered at iteration `attempt` with the current `backoff` value. The result
of attempt `i` is `attemptResults i`; the function returns the outcome
returned by the Python loop, the index of the last attempt performed, and
the list of backoff sleeps performed (in order). -/
def check_retry_aux (attemptResults : Nat → Outcome) (retries : Nat) (attempt : Nat)
    (backoff : ℚ) : Outcome × Nat × List ℚ :=
  let last := attemptResults attempt
  if last.status ≠ Status.unknown then
    (last, attempt, [])
  else if h : attempt ≤ retries then
    let r := check_retry_aux attemptResults retries (attempt + 1) (backoff * 2)
    (r.1, r.2.1, backoff :: r.2.2)
  else
    (last, attempt, [])
termination_by retries + 1 - attempt
decreasing_by omega

/-- `SteamChecker._check_with_retries` (lines 112 to 122): the loop runs
`attempt` over `range(1, retries + 2)` with initial backoff 0.6
(the rational 3/5). -/
def check_with_retries (retries : Nat) (attemptResults : Nat → Outcome) :
    Outcome × Nat × List ℚ :=
  check_retry_aux attemptResults retries 1 (3 / 5 : ℚ)

/-- The sanitization and filtering stage of `SteamChecker.run_check_list`
(lines 172 to 185), with the four successive reassignments of `names`
written as successive lets. `seen` is the set loaded from results.csv when
`resume` is enabled; `maxChecks` is the `max_checks` parameter. -/
def sanitize_filter (names : List String) (resume : Bool) (seen : List String)
    (maxChecks : Int) : List String :=
  let s1 := (names.filter (fun n => !n.data.isEmpty)).map (fun n => pyStrip (pyLower n))
  let s2 := s1.map keepAlnum
  let s3 := s2.filter (fun n => !n.data.isEmpty && allowedMatches n && decide (2 < n.length))
  let s4 := if resume then s3.filter (fun n => !decide (n ∈ seen)) else s3
  if 0 < maxChecks then s4.take maxChecks.toNat else s4

/-- `load_seen_from_csv` (lines 33 to 52), applied to the username column
of results.csv: each username is stripped and kept when nonempty. -/
def load_seen_from_csv (rows : List String) : List String :=
  (rows.map pyStrip).filter (fun u => !u.data.isEmpty)

/-- The effect of `SteamChecker.run_check_list` (lines 172 to 227) on the
username column of results.csv: each surviving candidate is checked and
appended exactly once, in order, after the existing records. -/
def run_check_list_store (store : List String) (raw : List String) (mc : Int)
    (resume : Bool) : List String :=
  store ++ sanitize_filter raw resume (load_seen_from_csv store) mc

/-- The outwardly visible control flow of `run_check_list` around the
zero-candidate early return (lines 187 to 196): whether the
"No names to check" message is printed, whether a `ClientSession` is
opened, and which names are dispatched for checking. In the source the
early return on line 190 happens before the session and connector of
lines 195 to 200 are created. -/
structure RunTrace where
  zeroReported : Bool
  sessionOpened : Bool
  checked : List String
deriving DecidableEq, Repr

/-- Control flow of `run_check_list` (lines 172 to 227) at the trace
level. -/
def run_check_list_trace (store raw : List String) (mc : Int) (resume : Bool) : RunTrace :=
  let names := sanitize_filter raw resume (load_seen_from_csv store) mc
  if names.length = 0 then ⟨true, false, []⟩
  else ⟨false, true, names⟩

/-- One row of results.csv as written by `write_result` (lines 124 to
131); `httpStatus = none` is serialised as the empty cell. -/
structure ResultRecord where
  username : String
  status : Status
  httpStatus : Option Nat
  timestamp : String
  note : String
deriving DecidableEq, Repr

/-- The two persistent output files: results.csv (list of records, after
the header) and Available.txt (list of lines). -/
structure Store where
  resultsCsv : List ResultRecord
  availableTxt : List String
deriving DecidableEq, Repr

/-- `SteamChecker.write_result` (lines 124 to 131): append one CSV row,
and append one line to Available.txt exactly when the status is
available. -/
def write_result (st : Store) (username : String) (status : Status)
    (httpStatus : Option Nat) (ts : String) (note : String) : Store :=
  { resultsCsv := st.resultsCsv ++ [⟨username, status, httpStatus, ts, note⟩],
    availableTxt :=
      if status = Status.available then st.availableTxt ++ [username]
      else st.availableTxt }

/-- One resolved check as seen by the dispatch loops (`worker`, lines 149
to 170, and the sequential loop, lines 199 to 214): the candidate name,
the outcome of `_check_with_retries`, and the timestamp taken by
`now_ts()` at write time. -/
structure Resolved where
  name : String
  outcome : Outcome
  ts : String
deriving DecidableEq, Repr

/-- The record written for one resolved check. -/
def recordOf (it : Resolved) : ResultRecord :=
  ⟨it.name, it.outcome.status, it.outcome.httpStatus, it.ts, it.outcome.note⟩

/-- The sequence of `write_result` calls performed by the dispatch loop
for a list of resolved checks, in resolution order (each of `worker` and
the sequential loop calls `write_result` exactly once per resolved
candidate). -/
def process_resolved (st : Store) (items : List Resolved) : Store :=
  items.foldl
    (fun s it => write_result s it.name it.outcome.status it.outcome.httpStatus it.ts
      it.outcome.note)
    st

/-- The observable behaviour of one call of `SteamChecker._update_title`
(lines 133 to 146): `computedRemaining` is the ETA computed when the
`try` body completes, and `printedLine` is the status line printed to the
console (`checked`, `available`, and the ETA it shows). In the source the
`print` call of lines 142 to 146 is indented inside the
`except Exception` handler of line 140, as is the assignment
`remaining_s = "..."`; the `try` body of lines 137 to 139 only computes
`remaining_s` and then falls through without printing. -/
structure TitleReport where
  computedRemaining : Option ℚ
  printedLine : Option (Nat × Nat × Option ℚ)
deriving DecidableEq, Repr

/-- `SteamChecker._update_title` (lines 133 to 146). `raisesInTry` says
whether the `try` body of lines 137 to 139 raises. -/
def update_title (raisesInTry : Bool) (elapsed : ℚ) (checked availCount total : Nat) :
    TitleReport :=
  if raisesInTry then
    { computedRemaining := none, printedLine := some (checked, availCount, none) }
  else
    { computedRemaining :=
        some ((elapsed / ((max 1 checked : Nat) : ℚ)) *
          (((max 0 ((total : Int) - (checked : Int))) : Int) : ℚ)),
      printedLine := none }

/-- The state of Custom.txt as seen by `run_from_custom_file` (lines 229
to 240): missing, or present with a list of lines. -/
inductive CustomFile
  | missing
  | present (lines : List String)
deriving DecidableEq, Repr

/-- The observable behaviour of `run_from_custom_file` (lines 229 to
240): whether an empty placeholder Custom.txt was created, whether the
user was instructed to populate it, whether the function returned before
constructing a checker, and the raw names passed on to
`run_check_list`. -/
structure CustomTrace where
  createdPlaceholder : Bool
  instructedUser : Bool
  returnedEarly : Bool
  rawNames : List String
deriving DecidableEq, Repr

/-- `run_from_custom_file` (lines 229 to 240) at the trace level. -/
def run_from_custom_file (fs : CustomFile) : CustomTrace :=
  match fs with
  | .missing => ⟨true, true, true, []⟩
  | .present lines =>
    let raw := (lines.map pyStrip).filter (fun l => !l.data.isEmpty)
    if raw.isEmpty then ⟨false, false, true, []⟩
    else ⟨false, false, false, raw⟩

/-- The configuration state set up by `SteamChecker.__init__` (lines 55
to 63). `timeoutSeconds` is stored unchanged inside the `ClientTimeout`;
`retries`, `delay` and `concurrency` are clamped. -/
structure SteamChecker where
  timeoutSeconds : Int
  retries : Int
  delay : ℚ
  concurrency : Int
  checked : Nat
  available : Nat
  totalToCheck : Nat
deriving DecidableEq, Repr

/-- `SteamChecker.__init__` (lines 55 to 63). -/
def SteamChecker.init (timeoutSeconds retries : Int) (delay : ℚ) (concurrency : Int) :
    SteamChecker :=
  { timeoutSeconds := timeoutSeconds
    retries := max 0 retries
    delay := max 0 delay
    concurrency := max 1 concurrency
    checked := 0
    available := 0
    totalToCheck := 0 }

/-! Theorems about the embedding. -/

/-- Claim C1: whenever the final post-redirect URL contains the marker
"/profiles/", `_check_once` classifies the candidate as taken with note
redirect_to_profiles, for every possible body (including an undecodable
body and a body containing a not-found phrase): the redirect rule has
first priority over all body-based rules. -/
theorem redirect_rule_first_priority (name url : String) (code : Nat) (body : Option String)
    (h : strContains url "/profiles/" = true) :
    check_once name (.success url code body) =
      .ok ⟨Status.taken, some code, "redirect_to_profiles"⟩ := by
  simp [check_once, h]

/-- Witness for C1 at a concrete response whose body contains the
not-found phrase. -/
theorem redirect_rule_first_priority_witness :
    strContains "https://steamcommunity.com/profiles/765611" "/profiles/" = true ∧
      check_once "abc"
          (.success "https://steamcommunity.com/profiles/765611" 200
            (some "The specified profile could not be found.")) =
        .ok ⟨Status.taken, some 200, "redirect_to_profiles"⟩ :=
  ⟨by decide,
    redirect_rule_first_priority "abc" "https://steamcommunity.com/profiles/765611" 200
      (some "The specified profile could not be found.") (by decide)⟩

/-- Claim C4: `_check_once` never raises for ordinary failures. A
cancellation is re-raised; every ordinary exception of kind `k` yields
the outcome `(unknown, None, "exception:" ++ k)`; an undecodable body (on
the non-redirect path, where the body is read) yields
`(unknown, status code, "unicode_error")`; and every non-cancellation
fetch result produces a classified outcome rather than an error. -/
theorem check_once_never_raises (name : String) :
    check_once name .cancelled = .error () ∧
      (∀ kind, check_once name (.failure kind) =
        .ok ⟨Status.unknown, none, "exception:" ++ kind⟩) ∧
      (∀ url code, strContains url "/profiles/" = false →
        check_once name (.success url code none) =
          .ok ⟨Status.unknown, some code, "unicode_error"⟩) ∧
      (∀ r, r ≠ FetchResult.cancelled → ∃ o, check_once name r = .ok o) := by
  refine ⟨rfl, fun kind => rfl, fun url code h => by simp [check_once, h], fun r hr => ?_⟩
  cases r with
  | cancelled => exact absurd rfl hr
  | failure kind => exact ⟨_, rfl⟩
  | success url code body =>
    simp only [check_once]
    split
    · exact ⟨_, rfl⟩
    · cases body with
      | none => exact ⟨_, rfl⟩
      | some b =>
        dsimp only
        split
        · exact ⟨_, rfl⟩
        · split
          · exact ⟨_, rfl⟩
          · exact ⟨_, rfl⟩

/-- Witness for C4 at concrete fetch results. -/
theorem check_once_never_raises_witness :
    check_once "abc" (.failure "TimeoutError") =
        .ok ⟨Status.unknown, none, "exception:TimeoutError"⟩ ∧
      check_once "abc" (.success "https://steamcommunity.com/id/abc/" 200 none) =
        .ok ⟨Status.unknown, some 200, "unicode_error"⟩ ∧
      (∃ o, check_once "abc" (.success "https://steamcommunity.com/id/abc/" 200 (some "x")) =
        .ok o) :=
  ⟨(check_once_never_raises "abc").2.1 "TimeoutError",
    (check_once_never_raises "abc").2.2.1 "https://steamcommunity.com/id/abc/" 200 (by decide),
    (check_once_never_raises "abc").2.2.2
      (.success "https://steamcommunity.com/id/abc/" 200 (some "x")) (by decide)⟩

/-- Behaviour of the retry loop from an arbitrary entry point: the last
attempt index stays in range, the returned outcome is the outcome of the
last attempt performed, every earlier attempt was unknown, an unknown
final outcome means the loop exhausted all attempts, and the sleeps are
the geometric backoff sequence. -/
theorem check_retry_aux_spec (f : Nat → Outcome) (retries : Nat) :
    ∀ d attempt backoff, retries + 1 - attempt = d → attempt ≤ retries + 1 →
      attempt ≤ (check_retry_aux f retries attempt backoff).2.1 ∧
      (check_retry_aux f retries attempt backoff).2.1 ≤ retries + 1 ∧
      (check_retry_aux f retries attempt backoff).1 =
        f (check_retry_aux f retries attempt backoff).2.1 ∧
      (∀ j, attempt ≤ j → j < (check_retry_aux f retries attempt backoff).2.1 →
        (f j).status = Status.unknown) ∧
      ((f (check_retry_aux f retries attempt backoff).2.1).status = Status.unknown →
        (check_retry_aux f retries attempt backoff).2.1 = retries + 1) ∧
      (check_retry_aux f retries attempt backoff).2.2 =
        (List.range ((check_retry_aux f retries attempt backoff).2.1 - attempt)).map
          (fun i => backoff * 2 ^ i) := by
  intro d
  induction d with
  | zero =>
    intro attempt backoff hd hle
    have ha : attempt = retries + 1 := by omega
    rw [check_retry_aux]
    by_cases hs : (f attempt).status ≠ Status.unknown
    · simp only [if_pos hs]
      refine ⟨le_refl _, by omega, by trivial, fun j h1 h2 => by omega, fun h => by omega,
        by simp⟩
    · have hnr : ¬ attempt ≤ retries := by omega
      simp only [if_neg hs, dif_neg hnr]
      refine ⟨le_refl _, by omega, by trivial, fun j h1 h2 => by omega, fun _ => by omega,
        by simp⟩
  | succ d ih =>
    intro attempt backoff hd hle
    rw [check_retry_aux]
    by_cases hs : (f attempt).status ≠ Status.unknown
    · simp only [if_pos hs]
      refine ⟨le_refl _, hle, by trivial, fun j h1 h2 => by omega, fun h => absurd h hs,
        by simp⟩
    · have hr : attempt ≤ retries := by omega
      simp only [if_neg hs, dif_pos hr]
      have hd2 : retries + 1 - (attempt + 1) = d := by omega
      have hle2 : attempt + 1 ≤ retries + 1 := by omega
      obtain ⟨i1, i2, i3, i4, i5, i6⟩ := ih (attempt + 1) (backoff * 2) hd2 hle2
      push_neg at hs
      refine ⟨by omega, i2, i3, ?_, i5, ?_⟩
      · intro j h1 h2
        rcases Nat.eq_or_lt_of_le h1 with h | h
        · exact h ▸ hs
        · exact i4 j h h2
      · rw [i6]
        have hk : (check_retry_aux f retries (attempt + 1) (backoff * 2)).2.1 - attempt =
            ((check_retry_aux f retries (attempt + 1) (backoff * 2)).2.1 - (attempt + 1)) + 1 := by
          omega
        rw [hk, List.range_succ_eq_map, List.map_cons, List.map_map]
        simp only [Function.comp, pow_zero, mul_one, Nat.succ_eq_add_one, pow_succ]
        refine congrArg (List.cons backoff) (List.map_congr_left ?_)
        intro i _
        simp only [Function.comp_apply, Nat.succ_eq_add_one, pow_succ]
        ring

/-- Claim C3: the retry wrapper performs at most `retries + 1` attempts;
its result is the outcome of the last attempt performed; every attempt
before the last was unknown (so the first non-unknown outcome is returned
immediately); if the final outcome is unknown then exactly `retries + 1`
attempts were performed; and the sleeps between attempts form the
exponential backoff sequence 0.6, 1.2, 2.4, ... (base 3/5, doubling); the
wrapper always returns an outcome, never a hard failure. -/
theorem check_with_retries_spec (retries : Nat) (f : Nat → Outcome) :
    1 ≤ (check_with_retries retries f).2.1 ∧
    (check_with_retries retries f).2.1 ≤ retries + 1 ∧
    (check_with_retries retries f).1 = f (check_with_retries retries f).2.1 ∧
    (∀ j, 1 ≤ j → j < (check_with_retries retries f).2.1 →
      (f j).status = Status.unknown) ∧
    ((f (check_with_retries retries f).2.1).status = Status.unknown →
      (check_with_retries retries f).2.1 = retries + 1) ∧
    (check_with_retries retries f).2.2 =
      (List.range ((check_with_retries retries f).2.1 - 1)).map
        (fun i => (3 / 5 : ℚ) * 2 ^ i) :=
  check_retry_aux_spec f retries (retries + 1 - 1) 1 (3 / 5 : ℚ) rfl (by omega)

/-- Witness for C3: with 2 configured retries and every attempt yielding
an unknown outcome, exactly 3 attempts are performed, and the attempt
before the last was indeed unknown. -/
theorem check_with_retries_spec_witness :
    (check_with_retries 2 (fun _ => ⟨Status.unknown, none, "exception:TimeoutError"⟩)).2.1 =
        2 + 1 ∧
      ((fun _ => (⟨Status.unknown, none, "exception:TimeoutError"⟩ : Outcome)) 1).status =
        Status.unknown := by
  have h3 : (check_with_retries 2 (fun _ => ⟨Status.unknown, none, "exception:TimeoutError"⟩)).2.1
      = 2 + 1 :=
    (check_with_retries_spec 2 (fun _ => ⟨Status.unknown, none, "exception:TimeoutError"⟩)).2.2.2.2.1
      rfl
  exact ⟨h3,
    (check_with_retries_spec 2 (fun _ => ⟨Status.unknown, none, "exception:TimeoutError"⟩)).2.2.2.1
      1 (by omega) (by omega)⟩

/-- Membership survives the `max_checks` truncation of line 185. -/
theorem mem_of_mem_take_ite {l : List String} {mc : Int} {n : String}
    (h : n ∈ (if 0 < mc then l.take mc.toNat else l)) : n ∈ l := by
  split at h
  · exact List.take_subset _ _ h
  · exact h

/-- Membership survives the resume filter of lines 180 to 182, and under
resume implies absence from the seen set. -/
theorem mem_of_mem_resume_ite {l seen : List String} {r : Bool} {n : String}
    (h : n ∈ (if r then l.filter (fun m => !decide (m ∈ seen)) else l)) :
    n ∈ l ∧ (r = true → n ∉ seen) := by
  cases r with
  | false => exact ⟨h, fun hc => by simp at hc⟩
  | true =>
    simp only [if_true] at h
    have hm := List.mem_filter.mp h
    refine ⟨hm.1, fun _ => ?_⟩
    simpa using hm.2

/-- Every output of the sanitization stage passed the length-and-charset
filter of line 177 and, under resume, is not among the seen usernames. -/
theorem sanitize_filter_mem (names seen : List String) (resume : Bool) (mc : Int)
    (n : String) (h : n ∈ sanitize_filter names resume seen mc) :
    allowedMatches n = true ∧ 2 < n.length ∧ (resume = true → n ∉ seen) := by
  simp only [sanitize_filter] at h
  have h4 := mem_of_mem_take_ite h
  have h3 := mem_of_mem_resume_ite h4
  have hm := List.mem_filter.mp h3.1
  have hp := hm.2
  simp only [Bool.and_eq_true, decide_eq_true_eq] at hp
  exact ⟨hp.1.2, hp.2, h3.2⟩

/-- The sanitization stage is order preserving: its output is a sublist
of the pointwise-normalised input sequence. -/
theorem sanitize_filter_sublist (names seen : List String) (resume : Bool) (mc : Int) :
    (sanitize_filter names resume seen mc).Sublist (names.map sanitizeOne) := by
  simp only [sanitize_filter]
  have base :
      ((((names.filter (fun n => !n.data.isEmpty)).map (fun n => pyStrip (pyLower n))).map
        keepAlnum).filter
          (fun n => !n.data.isEmpty && allowedMatches n && decide (2 < n.length))).Sublist
        (names.map sanitizeOne) := by
    refine (List.filter_sublist _).trans ?_
    rw [List.map_map]
    exact (List.filter_sublist names).map sanitizeOne
  have mid :
      (if resume then
        ((((names.filter (fun n => !n.data.isEmpty)).map (fun n => pyStrip (pyLower n))).map
          keepAlnum).filter
            (fun n => !n.data.isEmpty && allowedMatches n && decide (2 < n.length))).filter
          (fun n => !decide (n ∈ seen))
      else
        (((names.filter (fun n => !n.data.isEmpty)).map (fun n => pyStrip (pyLower n))).map
          keepAlnum).filter
            (fun n => !n.data.isEmpty && allowedMatches n && decide (2 < n.length))).Sublist
        (names.map sanitizeOne) := by
    split
    · exact (List.filter_sublist _).trans base
    · exact base
  split
  · exact (List.take_sublist _ _).trans mid
  · exact mid

/-- Claim C2: the sanitization stage of `run_check_list` outputs only
strings matching `[a-z0-9]+` of length greater than 2, in the original
relative order (a sublist of the pointwise-normalised inputs); with
resume enabled it removes exactly the candidates already in the seen
set (pointwise filter against the persisted usernames); and a positive
`max_checks` truncates to the order-preserving prefix of that length. -/
theorem run_check_list_sanitize (names seen : List String) (resume : Bool) (mc : Int) :
    (∀ n ∈ sanitize_filter names resume seen mc,
      allowedMatches n = true ∧ 2 < n.length) ∧
    (sanitize_filter names resume seen mc).Sublist (names.map sanitizeOne) ∧
    sanitize_filter names true seen 0 =
      (sanitize_filter names false seen 0).filter (fun n => !decide (n ∈ seen)) ∧
    (0 < mc → sanitize_filter names resume seen mc =
      (sanitize_filter names resume seen 0).take mc.toNat) := by
  refine ⟨fun n hn => ?_, sanitize_filter_sublist names seen resume mc, rfl, fun hmc => ?_⟩
  · have := sanitize_filter_mem names seen resume mc n hn
    exact ⟨this.1, this.2.1⟩
  · simp only [sanitize_filter]
    rw [if_pos hmc, if_neg (lt_irrefl (0 : Int))]

/-- Witness for C2: a concrete raw list with mixed case, punctuation and
a too-short entry. -/
theorem run_check_list_sanitize_witness :
    (allowedMatches "abc1" = true ∧ 2 < ("abc1" : String).length) ∧
      sanitize_filter ["  Abc1! ", "ab"] false [] 3 =
        (sanitize_filter ["  Abc1! ", "ab"] false [] 0).take (3 : Int).toNat :=
  ⟨(run_check_list_sanitize ["  Abc1! ", "ab"] [] false 3).1 "abc1" (by decide),
    (run_check_list_sanitize ["  Abc1! ", "ab"] [] false 3).2.2.2 (by decide)⟩

/-- Counterexample to claim C5 as stated: from an empty results store,
running the pipeline on the raw list `["abc", "abc"]` with resume enabled
checks the same username twice and records it twice, so the store history
contains duplicate usernames. -/
theorem resume_no_duplicates_counterexample :
    ¬ (run_check_list_store [] ["abc", "abc"] 0 true).Nodup := by decide

/-- Claim C5 as amended: a first run from an empty store appends exactly
one record per processed candidate (N candidates give N records); the
recorded usernames are pairwise distinct provided the sanitized candidate
list itself has no duplicates (resume filters only against the persisted
store, not within the current run); the stored usernames are monotonically
non-decreasing across runs; and under resume no checked candidate was
already among the persisted usernames. -/
theorem resume_store_amended (store raw : List String) (mc : Int) (resume : Bool) :
    (run_check_list_store [] raw mc resume).length =
      (sanitize_filter raw resume (load_seen_from_csv []) mc).length ∧
    ((sanitize_filter raw resume (load_seen_from_csv []) mc).Nodup →
      (run_check_list_store [] raw mc resume).Nodup) ∧
    (∀ u ∈ store, u ∈ run_check_list_store store raw mc resume) ∧
    (∀ n ∈ sanitize_filter raw true (load_seen_from_csv store) mc,
      n ∉ load_seen_from_csv store) := by
  refine ⟨by simp [run_check_list_store], fun h => ?_, fun u hu => ?_, fun n hn => ?_⟩
  · simpa [run_check_list_store] using h
  · exact List.mem_append_left _ hu
  · exact (sanitize_filter_mem raw (load_seen_from_csv store) true mc n hn).2.2 rfl

/-- Witness for C5 (amended) at concrete stores and raw lists. -/
theorem resume_store_amended_witness :
    (run_check_list_store [] ["abc", "xyz9"] 0 true).Nodup ∧
      "abc" ∈ run_check_list_store ["abc"] ["qrs"] 0 true ∧
      "xyz9" ∉ load_seen_from_csv ["abc"] :=
  ⟨(resume_store_amended [] ["abc", "xyz9"] 0 true).2.1 (by decide),
    (resume_store_amended ["abc"] ["qrs"] 0 true).2.2.1 "abc" (by decide),
    (resume_store_amended ["abc"] ["xyz9"] 0 true).2.2.2 "xyz9" (by decide)⟩

/-- Claim C6: for every batch of resolved checks, the dispatch loop
appends exactly one ResultRecord per resolved candidate (in order, never
zero, never more than one) and appends exactly one line per candidate
whose outcome is available to Available.txt. -/
theorem worker_append_spec (st : Store) (items : List Resolved) :
    (process_resolved st items).resultsCsv = st.resultsCsv ++ items.map recordOf ∧
    (process_resolved st items).resultsCsv.length = st.resultsCsv.length + items.length ∧
    (process_resolved st items).availableTxt =
      st.availableTxt ++
        (items.filter (fun it => decide (it.outcome.status = Status.available))).map
          (fun it => it.name) := by
  induction items generalizing st with
  | nil => simp [process_resolved]
  | cons it rest ih =>
    have hstep : process_resolved st (it :: rest) =
        process_resolved
          (write_result st it.name it.outcome.status it.outcome.httpStatus it.ts
            it.outcome.note)
          rest := rfl
    obtain ⟨r1, r2, r3⟩ :=
      ih (write_result st it.name it.outcome.status it.outcome.httpStatus it.ts it.outcome.note)
    refine ⟨?_, ?_, ?_⟩
    · rw [hstep, r1]
      simp [write_result, recordOf]
    · rw [hstep, r2]
      simp [write_result]
      omega
    · rw [hstep, r3]
      by_cases h : it.outcome.status = Status.available
      · simp [write_result, h, List.filter_cons]
      · simp [write_result, h, List.filter_cons]

/-- Claim C7 names the always-emitted status line; the code disagrees.
This theorem records what the code does: whenever the `try` body of
`_update_title` completes (the normal path, since the divisor is
`max(1, checked)` which is at least 1), the computed ETA equals the
linear-extrapolation formula
`remaining = (elapsed / max(1, checked)) * max(0, total - checked)`, but
no status line is printed at all, because the `print` call sits inside
the `except` handler. -/
theorem update_title_no_status_line (elapsed : ℚ) (checked avail total : Nat) :
    (update_title false elapsed checked avail total).printedLine = none ∧
    (update_title false elapsed checked avail total).computedRemaining =
      some (elapsed / max 1 (checked : ℚ) * max 0 ((total : ℚ) - (checked : ℚ))) := by
  refine ⟨rfl, ?_⟩
  simp only [update_title, if_neg Bool.false_ne_true]
  congr 1
  push_cast
  rfl

/-- Claim C8: when the sanitization stage leaves zero candidates, the run
reports zero-to-check and returns without opening a session and without
dispatching any check. -/
theorem zero_candidates_no_network (store raw : List String) (mc : Int) (resume : Bool)
    (h : sanitize_filter raw resume (load_seen_from_csv store) mc = []) :
    run_check_list_trace store raw mc resume = ⟨true, false, []⟩ := by
  simp [run_check_list_trace, h]

/-- Witness for C8: every raw candidate is filtered out. -/
theorem zero_candidates_no_network_witness :
    sanitize_filter ["ab", "!!"] true (load_seen_from_csv []) 0 = [] ∧
      run_check_list_trace [] ["ab", "!!"] 0 true = ⟨true, false, []⟩ :=
  ⟨by decide, zero_candidates_no_network [] ["ab", "!!"] 0 true (by decide)⟩

/-- Claim C9: with Custom.txt missing, `run_from_custom_file` creates an
empty placeholder, instructs the user, and completes without running any
check; with Custom.txt present but containing no nonblank line, it
likewise completes early without checks. -/
theorem custom_file_missing_or_empty_noop :
    run_from_custom_file .missing = ⟨true, true, true, []⟩ ∧
      ∀ lines, (lines.map pyStrip).filter (fun l => !l.data.isEmpty) = [] →
        run_from_custom_file (.present lines) = ⟨false, false, true, []⟩ := by
  refine ⟨rfl, fun lines h => ?_⟩
  simp [run_from_custom_file, h]

/-- Witness for C9: a file of blank lines. -/
theorem custom_file_missing_or_empty_noop_witness :
    run_from_custom_file (.present ["   ", ""]) = ⟨false, false, true, []⟩ :=
  custom_file_missing_or_empty_noop.2 ["   ", ""] (by decide)

/-- Claim C10: every constructed checker satisfies `retries >= 0`,
`delay >= 0`, `concurrency >= 1` (clamped, not rejected), so the
sequential/pooled dispatch choice is well defined and the retry loop
always performs at least one attempt. -/
theorem checker_init_clamped (t r : Int) (d : ℚ) (c : Int) (f : Nat → Outcome) :
    0 ≤ (SteamChecker.init t r d c).retries ∧
    0 ≤ (SteamChecker.init t r d c).delay ∧
    1 ≤ (SteamChecker.init t r d c).concurrency ∧
    ((SteamChecker.init t r d c).concurrency = 1 ∨
      1 < (SteamChecker.init t r d c).concurrency) ∧
    1 ≤ (check_with_retries (SteamChecker.init t r d c).retries.toNat f).2.1 := by
  refine ⟨le_max_left 0 r, le_max_left 0 d, le_max_left 1 c, ?_, ?_⟩
  · rcases lt_or_le 1 (max 1 c) with h | h
    · exact Or.inr h
    · exact Or.inl (le_antisymm h (le_max_left 1 c))
  · exact (check_retry_aux_spec f (SteamChecker.init t r d c).retries.toNat
      ((SteamChecker.init t r d c).retries.toNat + 1 - 1) 1 (3 / 5 : ℚ) rfl (by omega)).1

end Steam
